import Mathlib

/-!
Verification of the Gameloft news-collection pipeline (`Code/scrap_gameloft.py`).

The development shallowly embeds the pipeline's core: the SQLite-backed
article store (`NewsDatabase`), the SearXNG collector, the trafilatura-based
extraction engine with its snippet fallback, and the chunk/embed/upload
batcher.  External collaborators (HTTP search, page fetch, trafilatura
parsing, the text splitter, the embedding model and the vector store) are
taken as oracle functions: a call that may raise an exception is modelled as
a function into `Except Unit`, and a call that may return `None` as a
function into `Option`.  The article table is modelled as a list of rows in
insertion order (`created_at` is the insertion index, matching the
`ORDER BY created_at` scan order of an append-only table).
-/

namespace Gameloft

/-- A raw SearXNG search result, after the collector's field accesses
(`searx_article.get('url', '')` etc., `scrap_gameloft.py` lines 121-135).
Missing fields are the empty string; the dict-or-string handling of
`source` is folded into `source_name`. -/
structure SearxResult where
  url : String
  title : String
  content : String
  publishedDate : String
  source_name : String
  img_src : String
  thumbnail : String
deriving DecidableEq

/-- One row of the `articles` table (schema at lines 88-105).  `created_at`
is modelled as the insertion index; `processed` and `trafilatura_success`
are the 0/1 integer flags as booleans; the nullable `extracted_content` and
`extracted_metadata` columns are `Option String`. -/
structure Article where
  url : String
  title : String
  content : String
  published_date : String
  source_name : String
  img_src : String
  thumbnail : String
  searxng_data : String
  processed : Bool
  trafilatura_success : Bool
  extracted_content : Option String
  extracted_metadata : Option String
  created_at : Nat
deriving DecidableEq

/-- Python truthiness of a string: `s or t` falls through on `""`. -/
def pyOr (a b : String) : String := if a = "" then b else a

/-- Python `x or y` where `x` is an optional string (a dict `.get` that may
give `None`): falls through on `None` and on `""`. -/
def pyOrO (a : Option String) (b : String) : String :=
  match a with
  | none => b
  | some s => if s = "" then b else s

/-- Python slicing `s[:n]` on a string: the first `n` characters. -/
def pyTruncate (s : String) (n : Nat) : String :=
  ⟨s.data.take n⟩

/-- Python truthiness of an optional string (`if downloaded:` /
`if trafilatura_content:`): `None` and `""` are falsy. -/
def truthy : Option String → Bool
  | none => false
  | some s => s != ""

/-- Models `json.dumps(searx_article)` (line 136) as a total encoder of the
result record; no claim depends on the encoding itself. -/
def serializeResult (r : SearxResult) : String :=
  String.intercalate "|" [r.url, r.title, r.content, r.publishedDate,
    r.source_name, r.img_src, r.thumbnail]

/-- Scan for the `//` marker that precedes a URL's authority component;
nothing when the url has no `//`. -/
def dropThroughSlashes : List Char → Option (List Char)
  | [] => none
  | '/' :: '/' :: rest => some rest
  | _ :: rest => dropThroughSlashes rest

/-- The authority component runs until the next `/`, `?` or `#`. -/
def takeNetloc : List Char → List Char
  | [] => []
  | c :: rest =>
      if c = '/' ∨ c = '?' ∨ c = '#' then []
      else c :: takeNetloc rest

/-- Remove every (non-overlapping, left-to-right) occurrence of `www.`,
as Python's `str.replace('www.', '')` does. -/
def removeWWW : List Char → List Char
  | 'w' :: 'w' :: 'w' :: '.' :: rest => removeWWW rest
  | c :: rest => c :: removeWWW rest
  | [] => []

/-- Models `urlparse(url).netloc.replace('www.', '')` (`get_domain`,
lines 49-54) for `scheme://host/path`-shaped URLs: the host part between
the first `//` and the next path/query/fragment delimiter, with every
occurrence of `www.` removed; a url with no `//` has an empty netloc. -/
def get_domain (url : String) : String :=
  match dropThroughSlashes url.data with
  | none => ""
  | some rest => ⟨removeWWW (takeNetloc rest)⟩

/-- `NewsDatabase.insert_searxng_result` (lines 115-151): rejects a result
with no `url`; otherwise `INSERT OR IGNORE` keyed on the unique `url`
column — a duplicate url leaves the table unchanged and reports `false`
(`cursor.rowcount > 0`).  A fresh row starts with `processed = 0`,
`trafilatura_success = 0` and NULL extraction columns (table defaults). -/
def insert_searxng_result (db : List Article) (r : SearxResult) :
    Bool × List Article :=
  if r.url = "" then (false, db)
  else if ∃ a ∈ db, a.url = r.url then (false, db)
  else (true, db ++ [{
    url := r.url
    title := r.title
    content := r.content
    published_date := r.publishedDate
    source_name := r.source_name
    img_src := r.img_src
    thumbnail := r.thumbnail
    searxng_data := serializeResult r
    processed := false
    trafilatura_success := false
    extracted_content := none
    extracted_metadata := none
    created_at := db.length }])

/-- `NewsDatabase.get_unprocessed_articles` (lines 153-167):
`SELECT * FROM articles WHERE processed = 0 ORDER BY created_at`, with a
`LIMIT` clause appended only when `limit` is truthy (`if limit:` — so
`None` and `0` both mean unlimited). -/
def get_unprocessed_articles (db : List Article) (limit : Option Nat) :
    List Article :=
  let l := db.filter (fun a => !a.processed)
  match limit with
  | none => l
  | some n => if n = 0 then l else l.take n

/-- `NewsDatabase.mark_as_processed` (lines 169-189):
`UPDATE articles SET processed = 1, trafilatura_success = ?,
extracted_content = ?, extracted_metadata = ? WHERE url = ?`.  The update
is unconditional on the row's current state; storage exceptions are caught
and logged (the model is total). -/
def mark_as_processed (db : List Article) (url : String) (success : Bool)
    (extracted_content extracted_metadata : Option String) : List Article :=
  db.map (fun a =>
    if a.url = url then
      { a with processed := true
               trafilatura_success := success
               extracted_content := extracted_content
               extracted_metadata := extracted_metadata }
    else a)

/-- `get_searxng_news` (lines 217-247): the HTTP round-trip for one page is
an oracle `search : page → Except Unit (List SearxResult)` (query, base
url and time range are fixed at the call site); a raised transport error
is caught, logged, and turned into the empty result list. -/
def get_searxng_news (search : Nat → Except Unit (List SearxResult))
    (page : Nat) : List SearxResult :=
  match search page with
  | .ok results => results
  | .error _ => []

/-- The trafilatura collaborator's metadata record (`as_dict()` fields used
by `extract_and_format_enhanced`); `none` stands for an absent key or a
stored `None`, both of which the code's `or`-chains and `.get` defaults
fall through. -/
structure TrafMeta where
  title : Option String
  date : Option String
  author : Option String
  sitename : Option String
  description : Option String
  image : Option String
deriving DecidableEq

/-- The empty metadata dict (`trafilatura_metadata = {}`). -/
def TrafMeta.empty : TrafMeta :=
  ⟨none, none, none, none, none, none⟩

/-- The extraction collaborators: `fetch url no_ssl` models
`trafilatura.fetch_url` (may raise, may return `None`); `extract` models
`trafilatura.extract` on the downloaded text (may raise, may return
`None`); `extract_metadata` models `trafilatura.extract_metadata` (may
raise, may return `None`). -/
structure TrafOracle where
  fetch : String → Bool → Except Unit (Option String)
  extract : String → Except Unit (Option String)
  extract_metadata : String → Except Unit (Option TrafMeta)

/-- `fetch_with_strategy` (lines 56-74): try a standard fetch; if it
returns `None`, retry once with `no_ssl=True`; any exception raised by
either attempt is caught and yields `None`. -/
def fetch_with_strategy (fetch : String → Bool → Except Unit (Option String))
    (url : String) : Option String :=
  match fetch url false with
  | .error _ => none
  | .ok (some s) => some s
  | .ok none =>
      match fetch url true with
      | .error _ => none
      | .ok d => d

/-- Step A of `extract_and_format_enhanced` (lines 261-281): when the
downloaded text is truthy, run content and metadata extraction (either may
raise, propagating to the function's handler); otherwise no content and an
empty metadata dict. -/
def tryParse (o : TrafOracle) (downloaded : Option String) :
    Except Unit (Option String × TrafMeta) :=
  match downloaded with
  | none => .ok (none, TrafMeta.empty)
  | some d =>
      if d = "" then .ok (none, TrafMeta.empty)
      else
        match o.extract d with
        | .error e => .error e
        | .ok tc =>
            match o.extract_metadata d with
            | .error e => .error e
            | .ok tm => .ok (tc, tm.getD TrafMeta.empty)

/-- The `clean_metadata` dict built at lines 299-309. -/
structure CleanMetadata where
  title : String
  date : String
  author : String
  source : String
  url : String
  description : String
  image_url : String
  content_source : String
  trafilatura_success : Bool
deriving DecidableEq

/-- Step C of `extract_and_format_enhanced` (lines 299-309): each field is
an `or`-chain, first non-falsy wins; `description` is truncated to 500
characters; `source` falls back to the domain parsed from the url. -/
def mkCleanMetadata (tm : TrafMeta) (a : Article) (cs : String)
    (ts : Bool) : CleanMetadata :=
  { title := pyOrO tm.title a.title
    date := pyOrO tm.date a.published_date
    author := tm.author.getD ""
    source := pyOr (pyOrO tm.sitename a.source_name) (get_domain a.url)
    url := a.url
    description := pyTruncate (pyOrO tm.description a.content) 500
    image_url := pyOr (pyOrO tm.image a.img_src) a.thumbnail
    content_source := cs
    trafilatura_success := ts }

/-- Models `json.dumps(clean_metadata)` (line 323) as a total encoder; no
claim depends on the encoding itself, only on its presence. -/
def serializeMetadata (m : CleanMetadata) : String :=
  String.intercalate "|" [m.title, m.date, m.author, m.source, m.url,
    m.description, m.image_url, m.content_source,
    if m.trafilatura_success then "true" else "false"]

/-- The output dict of `extract_and_format_enhanced` (lines 312-316). -/
structure ExtractOutput where
  id : String
  page_content : String
  metadata : CleanMetadata
deriving DecidableEq

/-- `extract_and_format_enhanced` (lines 251-332), returning the output
record (or `none`) together with the article store after the side-effecting
`db.mark_as_processed` call.  Branches: empty url returns `none` without
touching the store; a truthy trafilatura extraction is the primary path
(marked success, content and metadata stored); otherwise the SearXNG
snippet (`content or title`) is the fallback body — if it is empty the
function returns `none` without marking; an exception escaping the parse
step is caught and the article is marked failed with NULL columns. -/
def extract_and_format_enhanced (o : TrafOracle) (db : List Article)
    (a : Article) : Option ExtractOutput × List Article :=
  if a.url = "" then (none, db)
  else
    match tryParse o (fetch_with_strategy o.fetch a.url) with
    | .error _ => (none, mark_as_processed db a.url false none none)
    | .ok (tc, tm) =>
        if truthy tc then
          let final_content := tc.getD ""
          let meta := mkCleanMetadata tm a "trafilatura" true
          (some ⟨a.url, final_content, meta⟩,
            mark_as_processed db a.url true (some final_content)
              (some (serializeMetadata meta)))
        else
          let final_content := pyOr a.content a.title
          if final_content = "" then (none, db)
          else
            let meta := mkCleanMetadata tm a "searxng_fallback" false
            (some ⟨a.url, final_content, meta⟩,
              mark_as_processed db a.url false none
                (some (serializeMetadata meta)))

/-- Python `str.strip()` on the chunk/body texts: drop leading and
trailing whitespace characters. -/
def pyStrip (s : String) : String :=
  ⟨((s.data.dropWhile Char.isWhitespace).reverse.dropWhile
      Char.isWhitespace).reverse⟩

/-- The combined metadata attached to every chunk of a record
(`combined_metadata` at lines 406-407): the record's metadata plus a
`source_id` key holding the record's id. -/
structure CombinedMetadata where
  meta : CleanMetadata
  source_id : String
deriving DecidableEq

/-- One row inserted into the Supabase `documents` table (lines 430-435).
The float vector is an opaque payload; its values are never inspected, so
it is modelled as a list of integers. -/
structure VectorRow where
  content : String
  metadata : CombinedMetadata
  embedding : List Int
deriving DecidableEq

/-- The chunk-collection loop of `process_and_upload_json_records`
(lines 400-416): skip a record whose `page_content` is falsy or whose
stripped length is under 50; split the rest with the text splitter
(an oracle `split`); keep only chunks whose stripped length is strictly
greater than 20, each paired with the record's combined metadata. -/
def gatherChunks (split : String → List String)
    (records : List ExtractOutput) : List (String × CombinedMetadata) :=
  match records with
  | [] => []
  | record :: rest =>
      let content := record.page_content
      let here :=
        if content = "" ∨ (pyStrip content).length < 50 then []
        else
          ((split content).filter (fun c => (pyStrip c).length > 20)).map
            (fun c => (c, ⟨record.metadata, record.id⟩))
      here ++ gatherChunks split rest

/-- `CustomBedrockEmbeddings.embed_documents` (lines 341-342): a serial
list comprehension over `get_embedding`; the first raised exception aborts
the whole comprehension. -/
def embed_documents (embed : String → Except Unit (List Int)) :
    List String → Except Unit (List (List Int))
  | [] => .ok []
  | t :: ts =>
      match embed t with
      | .error e => .error e
      | .ok v =>
          match embed_documents embed ts with
          | .error e => .error e
          | .ok vs => .ok (v :: vs)

/-- `process_and_upload_json_records` (lines 368-445), returning the rows
committed to the vector store.  Empty input or zero surviving chunks is a
no-op; the embed-and-insert block is one `try`: an exception from any
embedding call or from the bulk insert aborts the batch (nothing committed,
nothing retried, nothing re-raised). -/
def process_and_upload_json_records (split : String → List String)
    (embed : String → Except Unit (List Int))
    (insertRows : List VectorRow → Except Unit Unit)
    (records : List ExtractOutput) : List VectorRow :=
  if records = [] then []
  else
    let pairs := gatherChunks split records
    if pairs = [] then []
    else
      match embed_documents embed (pairs.map Prod.fst) with
      | .error _ => []
      | .ok vectors =>
          let rows := (pairs.zip vectors).map
            (fun pv => ⟨pv.1.1, pv.1.2, pv.2⟩)
          match insertRows rows with
          | .error _ => []
          | .ok _ => rows

/-- The per-page insertion loop of `collect_searxng_articles`
(lines 467-471): insert each item, counting the new rows. -/
def insertAll (db : List Article) :
    List SearxResult → Nat × List Article
  | [] => (0, db)
  | item :: rest =>
      let p := insert_searxng_result db item
      let q := insertAll p.2 rest
      ((if p.1 then 1 else 0) + q.1, q.2)

/-- The page loop of `collect_searxng_articles` (lines 458-476), with the
remaining page budget as fuel: fetch the page, stop on an empty (or
errored, hence empty) result list, otherwise insert and continue. -/
def collectFrom (search : Nat → Except Unit (List SearxResult)) :
    List Article → Nat → Nat → Nat × List Article
  | db, _, 0 => (0, db)
  | db, page, fuel + 1 =>
      match get_searxng_news search page with
      | [] => (0, db)
      | item :: items =>
          let p := insertAll db (item :: items)
          let q := collectFrom search p.2 (page + 1) fuel
          (p.1 + q.1, q.2)

/-- `collect_searxng_articles` (lines 449-483): pages 1 to `max_pages`,
returning the count of new articles and the updated store. -/
def collect_searxng_articles (search : Nat → Except Unit (List SearxResult))
    (db : List Article) (max_pages : Nat) : Nat × List Article :=
  collectFrom search db 1 max_pages

/-- The article loop of `process_stored_articles` (lines 502-513): run the
extraction engine over a snapshot of unprocessed articles, threading the
store and keeping the non-null outputs in order. -/
def processList (o : TrafOracle) :
    List Article → List Article → List ExtractOutput × List Article
  | db, [] => ([], db)
  | db, a :: rest =>
      let p := extract_and_format_enhanced o db a
      let q := processList o p.2 rest
      (match p.1 with
       | some out => out :: q.1
       | none => q.1, q.2)

/-- `process_stored_articles` (lines 485-517): snapshot the unprocessed
articles (optionally capped) and extract each. -/
def process_stored_articles (o : TrafOracle) (db : List Article)
    (limit : Option Nat) : List ExtractOutput × List Article :=
  processList o db (get_unprocessed_articles db limit)

/-- `run_complete_pipeline` (lines 519-546): collect, then process, then
upload (phase 3 is skipped when nothing was processed).  Returns the final
article store and the rows committed to the vector store. -/
def run_complete_pipeline (search : Nat → Except Unit (List SearxResult))
    (o : TrafOracle) (split : String → List String)
    (embed : String → Except Unit (List Int))
    (insertRows : List VectorRow → Except Unit Unit)
    (db : List Article) (max_pages : Nat) (process_limit : Option Nat) :
    List Article × List VectorRow :=
  let db1 := (collect_searxng_articles search db max_pages).2
  let pr := process_stored_articles o db1 process_limit
  if pr.1 = [] then (pr.2, [])
  else (pr.2, process_and_upload_json_records split embed insertRows pr.1)

/-- The store invariant relating extraction columns to the state flags: a
populated `extracted_content` implies the extraction succeeded, and an
unprocessed row has both extraction columns NULL. -/
def storeInvariant (db : List Article) : Prop :=
  ∀ a ∈ db,
    (a.extracted_content ≠ none → a.trafilatura_success = true) ∧
    (a.processed = false →
      a.extracted_content = none ∧ a.extracted_metadata = none)

/-- A sample unprocessed article row as stored by the collector. -/
def artU : Article :=
  ⟨"https://a.test/1", "T", "snippet text", "2024", "Src", "", "", "sx",
    false, false, none, none, 0⟩

/-- A minimal unprocessed article row (short fields keep concrete
evaluation cheap). -/
def artV : Article :=
  ⟨"u", "t", "snip", "", "", "", "", "", false, false, none, none, 0⟩

/-- A sample already-processed article row with stored extraction results,
used by concrete witnesses and counterexamples. -/
def artP : Article :=
  ⟨"https://b.test/2", "T2", "snip2", "", "", "", "", "sx2",
    true, true, some "X", some "M", 1⟩

/-- An oracle whose fetch returns null on every attempt and whose parsers
return nothing. -/
def nullFetchOracle : TrafOracle :=
  ⟨fun _ _ => .ok none, fun _ => .ok none, fun _ => .ok none⟩

/-- An oracle whose fetch raises on every attempt. -/
def raiseFetchOracle : TrafOracle :=
  ⟨fun _ _ => .error (), fun _ => .ok none, fun _ => .ok none⟩

/-- An oracle that downloads a fixed page but whose content parser
raises. -/
def parseErrorOracle : TrafOracle :=
  ⟨fun _ _ => .ok (some "page body"), fun _ => .error (),
    fun _ => .ok none⟩

/-- Metadata of a sample extracted record. -/
def metaA : CleanMetadata :=
  ⟨"T", "2024", "", "a.test", "https://a.test/1", "desc", "",
    "searxng_fallback", false⟩

/-- A sample extracted record whose body passes the 50-character floor. -/
def recA : ExtractOutput :=
  ⟨"https://a.test/1",
    "This body is long enough to pass the fifty character minimum filter.",
    metaA⟩

/-- A sample extracted record with a 49-character body. -/
def rec49 : ExtractOutput :=
  ⟨"https://a.test/2",
    "1234567890123456789012345678901234567890123456789", metaA⟩

/-! ## Helper lemmas about the store operations -/

/-- A row of the updated store carrying the targeted url holds exactly the
values written by `mark_as_processed`. -/
theorem mem_mark_url_eq {db : List Article} {u : String} {s : Bool}
    {c m : Option String} {b : Article}
    (hb : b ∈ mark_as_processed db u s c m) (hu : b.url = u) :
    b.processed = true ∧ b.trafilatura_success = s ∧
    b.extracted_content = c ∧ b.extracted_metadata = m := by
  obtain ⟨a, ha, rfl⟩ := List.mem_map.1 hb
  by_cases h : a.url = u
  · simp [h]
  · simp only [if_neg h] at hu ⊢
    exact absurd hu h

/-- A row of the updated store with a different url was already in the
store, unchanged. -/
theorem mem_mark_url_ne {db : List Article} {u : String} {s : Bool}
    {c m : Option String} {b : Article}
    (hb : b ∈ mark_as_processed db u s c m) (hu : b.url ≠ u) : b ∈ db := by
  obtain ⟨a, ha, rfl⟩ := List.mem_map.1 hb
  by_cases h : a.url = u
  · simp only [if_pos h] at hu
    exact absurd h hu
  · simpa [if_neg h] using ha

/-- A stored row whose url is not the targeted one survives
`mark_as_processed` unchanged. -/
theorem mem_mark_of_mem_ne {db : List Article} {u : String} {s : Bool}
    {c m : Option String} {a : Article} (ha : a ∈ db) (hu : a.url ≠ u) :
    a ∈ mark_as_processed db u s c m := by
  unfold mark_as_processed
  refine List.mem_map.2 ⟨a, ha, ?_⟩
  rw [if_neg hu]

/-- Repeating `mark_as_processed` with identical arguments changes
nothing. -/
theorem mark_idempotent (db : List Article) (u : String) (s : Bool)
    (c m : Option String) :
    mark_as_processed (mark_as_processed db u s c m) u s c m =
      mark_as_processed db u s c m := by
  unfold mark_as_processed
  rw [List.map_map]
  apply List.map_congr_left
  intro a _
  by_cases h : a.url = u
  · simp [Function.comp, h]
  · simp [Function.comp, h]

/-- `mark_as_processed` never changes the url column. -/
theorem mark_map_url (db : List Article) (u : String) (s : Bool)
    (c m : Option String) :
    (mark_as_processed db u s c m).map Article.url =
      db.map Article.url := by
  unfold mark_as_processed
  rw [List.map_map]
  apply List.map_congr_left
  intro a _
  by_cases h : a.url = u
  · simp [Function.comp, h]
  · simp [Function.comp, h]

/-! ## Claim theorems -/

/-- Helper: no row of `db` carries url `u`, stated as the failure of the
existence test used by `insert_searxng_result`. -/
theorem not_exists_of_fresh {db : List Article} {u : String}
    (hfresh : ∀ a ∈ db, a.url ≠ u) : ¬ ∃ a ∈ db, a.url = u := by
  rintro ⟨a, ha, hu⟩
  exact hfresh a ha hu

/-- C1: inserting the same url twice creates exactly one stored record:
with a well-formed fresh result the first `insert_searxng_result` returns
`true` and creates the single row with that url, and any later insert with
the same url returns `false` and leaves the store entirely unchanged. -/
theorem insert_same_url_twice_one_record (db : List Article)
    (r r' : SearxResult) (hurl : r.url ≠ "") (hsame : r'.url = r.url)
    (hfresh : ∀ a ∈ db, a.url ≠ r.url) :
    (insert_searxng_result db r).1 = true ∧
    ((insert_searxng_result db r).2.filter
      (fun a => a.url == r.url)).length = 1 ∧
    insert_searxng_result (insert_searxng_result db r).2 r' =
      (false, (insert_searxng_result db r).2) := by
  have hne := not_exists_of_fresh hfresh
  rw [insert_searxng_result, if_neg hurl, if_neg hne]
  refine ⟨rfl, ?_, ?_⟩
  · rw [List.filter_append]
    have hnil : db.filter (fun a => a.url == r.url) = [] := by
      rw [List.filter_eq_nil_iff]
      intro a ha
      simpa using hfresh a ha
    simp [hnil]
  · have hr' : r'.url ≠ "" := by rw [hsame]; exact hurl
    rw [insert_searxng_result, if_neg hr', if_pos]
    refine ⟨_, List.mem_append_right _ (List.mem_singleton_self _), ?_⟩
    simpa using hsame.symm

/-- Witness for C1 at a concrete search result and an empty store. -/
theorem insert_same_url_twice_one_record_witness :
    (insert_searxng_result []
      ⟨"https://a.test/1", "T", "snippet", "", "", "", ""⟩).1 = true ∧
    ((insert_searxng_result []
      ⟨"https://a.test/1", "T", "snippet", "", "", "", ""⟩).2.filter
      (fun a => a.url == "https://a.test/1")).length = 1 ∧
    insert_searxng_result
      (insert_searxng_result []
        ⟨"https://a.test/1", "T", "snippet", "", "", "", ""⟩).2
      ⟨"https://a.test/1", "T2", "other", "d", "s", "i", "t"⟩ =
      (false, (insert_searxng_result []
        ⟨"https://a.test/1", "T", "snippet", "", "", "", ""⟩).2) :=
  insert_same_url_twice_one_record []
    ⟨"https://a.test/1", "T", "snippet", "", "", "", ""⟩
    ⟨"https://a.test/1", "T2", "other", "d", "s", "i", "t"⟩
    (by decide) (by decide) (by decide)

/-- The extraction engine's behaviour when the fetch strategy yields
nothing and the snippet fallback is non-empty: the returned record carries
the snippet-or-title body, and the store is marked failed with a NULL
content column but a populated metadata column. -/
theorem extract_fetch_none_fallback {o : TrafOracle} {db : List Article}
    {a : Article} (h1 : a.url ≠ "")
    (hf : fetch_with_strategy o.fetch a.url = none)
    (hfc : pyOr a.content a.title ≠ "") :
    extract_and_format_enhanced o db a =
      (some ⟨a.url, pyOr a.content a.title,
        mkCleanMetadata TrafMeta.empty a "searxng_fallback" false⟩,
       mark_as_processed db a.url false none
        (some (serializeMetadata
          (mkCleanMetadata TrafMeta.empty a "searxng_fallback" false)))) := by
  unfold extract_and_format_enhanced
  rw [if_neg h1, hf]
  show (if pyOr a.content a.title = "" then _ else _) = _
  rw [if_neg hfc]

/-- The extraction engine's behaviour when the fetch strategy yields
nothing and both snippet and title are empty: no record, store
untouched. -/
theorem extract_fetch_none_empty {o : TrafOracle} {db : List Article}
    {a : Article} (h1 : a.url ≠ "")
    (hf : fetch_with_strategy o.fetch a.url = none)
    (hc : a.content = "") (ht : a.title = "") :
    extract_and_format_enhanced o db a = (none, db) := by
  have hfc : pyOr a.content a.title = "" := by
    rw [hc, ht]; rfl
  unfold extract_and_format_enhanced
  rw [if_neg h1, hf]
  show (if pyOr a.content a.title = "" then _ else _) = _
  rw [if_pos hfc]

/-- The extraction engine's behaviour when the parse step raises: the
exception is caught, no record is returned, and the article is marked
failed with both extraction columns NULL. -/
theorem extract_parse_error {o : TrafOracle} {db : List Article}
    {a : Article} {d : String} (h1 : a.url ≠ "")
    (hf : fetch_with_strategy o.fetch a.url = some d) (hd : d ≠ "")
    (he : o.extract d = .error () ∨
      ∃ tc, o.extract d = .ok tc ∧ o.extract_metadata d = .error ()) :
    extract_and_format_enhanced o db a =
      (none, mark_as_processed db a.url false none none) := by
  have htry : tryParse o (some d) = .error () := by
    unfold tryParse
    dsimp only
    rw [if_neg hd]
    rcases he with he | ⟨tc, htc, hm⟩
    · rw [he]
    · rw [htc, hm]
  unfold extract_and_format_enhanced
  rw [if_neg h1, hf, htry]

/-- Every article delivered by `get_unprocessed_articles` is a stored
unprocessed row. -/
theorem mem_unprocessed {db : List Article} {lim : Option Nat}
    {b : Article} (hb : b ∈ get_unprocessed_articles db lim) :
    b ∈ db ∧ b.processed = false := by
  have hfilter : b ∈ db.filter (fun a => !a.processed) := by
    rcases lim with _ | n
    · exact hb
    · unfold get_unprocessed_articles at hb
      dsimp only at hb
      by_cases hn : n = 0
      · rwa [if_pos hn] at hb
      · rw [if_neg hn] at hb
        exact List.mem_of_mem_take hb
  have := List.mem_filter.1 hfilter
  exact ⟨this.1, by simpa using this.2⟩

/-- C2 counterexample: `mark_as_processed` is not a no-op on an
already-processed record — called on a record that is processed with
stored extraction results, it overwrites `extracted_content` (here to
NULL), contradicting the claim that none of the record's fields change. -/
theorem mark_as_processed_not_noop_cex :
    artP.processed = true ∧ artP.extracted_content = some "X" ∧
    mark_as_processed [artP] "https://b.test/2" false none none ≠ [artP] ∧
    (mark_as_processed [artP] "https://b.test/2" false none none).map
      Article.extracted_content = [none] := by decide

/-- C2 amended: `mark_as_processed` sets every record with the given url to
`processed = true` and unconditionally overwrites `trafilatura_success`,
`extracted_content` and `extracted_metadata` with its arguments — also
when the record was already processed; records with other urls are
untouched; repeating the call with the same arguments is a no-op; the call
never throws (the model is total). -/
theorem mark_as_processed_overwrites (db : List Article) (u : String)
    (s : Bool) (c m : Option String) :
    (∀ b ∈ mark_as_processed db u s c m, b.url = u →
      b.processed = true ∧ b.trafilatura_success = s ∧
      b.extracted_content = c ∧ b.extracted_metadata = m) ∧
    (∀ b ∈ mark_as_processed db u s c m, b.url ≠ u → b ∈ db) ∧
    mark_as_processed (mark_as_processed db u s c m) u s c m =
      mark_as_processed db u s c m :=
  ⟨fun _ hb hu => mem_mark_url_eq hb hu,
   fun _ hb hu => mem_mark_url_ne hb hu,
   mark_idempotent db u s c m⟩

/-- Witness for C2's amended theorem at a concrete processed record. -/
theorem mark_as_processed_overwrites_witness :
    ((⟨"https://b.test/2", "T2", "snip2", "", "", "", "", "sx2",
        true, false, none, some "Z", 1⟩ : Article).processed = true ∧
      (⟨"https://b.test/2", "T2", "snip2", "", "", "", "", "sx2",
        true, false, none, some "Z", 1⟩ : Article).trafilatura_success
        = false ∧
      (⟨"https://b.test/2", "T2", "snip2", "", "", "", "", "sx2",
        true, false, none, some "Z", 1⟩ : Article).extracted_content
        = none ∧
      (⟨"https://b.test/2", "T2", "snip2", "", "", "", "", "sx2",
        true, false, none, some "Z", 1⟩ : Article).extracted_metadata
        = some "Z") ∧
    mark_as_processed (mark_as_processed [artP] "https://b.test/2" false
      none (some "Z")) "https://b.test/2" false none (some "Z") =
      mark_as_processed [artP] "https://b.test/2" false none (some "Z") :=
  ⟨(mark_as_processed_overwrites [artP] "https://b.test/2" false none
      (some "Z")).1
    ⟨"https://b.test/2", "T2", "snip2", "", "", "", "", "sx2",
      true, false, none, some "Z", 1⟩ (by decide) (by decide),
   (mark_as_processed_overwrites [artP] "https://b.test/2" false none
      (some "Z")).2.2⟩

/-- C4: when both download attempts return null, `extract` returns a
record whose content is the stored search snippet — or the title if the
snippet is empty — flagged as not extraction-succeeded, and marks the
article processed with `trafilatura_success = 0`. -/
theorem extract_fallback_on_fetch_null (o : TrafOracle) (db : List Article)
    (a : Article) (h1 : a.url ≠ "")
    (h2 : o.fetch a.url false = .ok none)
    (h3 : o.fetch a.url true = .ok none)
    (h4 : ¬(a.content = "" ∧ a.title = "")) :
    ((extract_and_format_enhanced o db a).1.map ExtractOutput.page_content
      = some (if a.content = "" then a.title else a.content)) ∧
    ((extract_and_format_enhanced o db a).1.map
      (fun r => r.metadata.trafilatura_success) = some false) ∧
    ∀ b ∈ (extract_and_format_enhanced o db a).2, b.url = a.url →
      b.processed = true ∧ b.trafilatura_success = false := by
  have hf : fetch_with_strategy o.fetch a.url = none := by
    unfold fetch_with_strategy
    rw [h2, h3]
  have hfc : pyOr a.content a.title ≠ "" := by
    unfold pyOr
    split
    · intro h
      exact h4 ⟨by assumption, h⟩
    · intro h
      exact absurd h (by assumption)
  rw [extract_fetch_none_fallback h1 hf hfc]
  refine ⟨by simp [pyOr], rfl, ?_⟩
  intro b hb hu
  have := mem_mark_url_eq hb hu
  exact ⟨this.1, this.2.1⟩

/-- Witness for C4: a concrete unprocessed article with a non-empty
snippet under an oracle whose fetch always returns null. -/
theorem extract_fallback_on_fetch_null_witness :
    ((extract_and_format_enhanced nullFetchOracle [artU] artU).1.map
      ExtractOutput.page_content
      = some (if artU.content = "" then artU.title else artU.content)) ∧
    ((extract_and_format_enhanced nullFetchOracle [artU] artU).1.map
      (fun r => r.metadata.trafilatura_success) = some false) ∧
    ∀ b ∈ (extract_and_format_enhanced nullFetchOracle [artU] artU).2,
      b.url = artU.url →
      b.processed = true ∧ b.trafilatura_success = false :=
  extract_fallback_on_fetch_null nullFetchOracle [artU] artU
    (by decide) rfl rfl (by decide)

/-- C8: when the fetch strategy yields nothing and both the stored snippet
and the title are empty, `extract` returns null without touching the
store, so the article stays unprocessed and remains in the unprocessed
scan of a future run. -/
theorem extract_empty_fallback_stays_unprocessed (o : TrafOracle)
    (db : List Article) (a : Article) (h1 : a.url ≠ "")
    (hf : fetch_with_strategy o.fetch a.url = none)
    (hc : a.content = "") (ht : a.title = "") :
    extract_and_format_enhanced o db a = (none, db) ∧
    (a ∈ db → a.processed = false →
      a ∈ get_unprocessed_articles
        (extract_and_format_enhanced o db a).2 none) := by
  have heq := @extract_fetch_none_empty o db a h1 hf hc ht
  refine ⟨heq, fun ha hp => ?_⟩
  rw [heq]
  exact List.mem_filter.2 ⟨ha, by simp [hp]⟩

/-- Witness for C8 at a concrete article with empty snippet and title. -/
theorem extract_empty_fallback_stays_unprocessed_witness :
    extract_and_format_enhanced nullFetchOracle
      [⟨"https://c.test/3", "", "", "", "", "", "", "sx", false, false,
        none, none, 0⟩]
      ⟨"https://c.test/3", "", "", "", "", "", "", "sx", false, false,
        none, none, 0⟩ =
      (none, [⟨"https://c.test/3", "", "", "", "", "", "", "sx", false,
        false, none, none, 0⟩]) ∧
    (⟨"https://c.test/3", "", "", "", "", "", "", "sx", false, false,
        none, none, 0⟩ ∈
        ([⟨"https://c.test/3", "", "", "", "", "", "", "sx", false, false,
          none, none, 0⟩] : List Article) →
      Article.processed ⟨"https://c.test/3", "", "", "", "", "", "", "sx",
        false, false, none, none, 0⟩ = false →
      (⟨"https://c.test/3", "", "", "", "", "", "", "sx", false, false,
        none, none, 0⟩ : Article) ∈
        get_unprocessed_articles
          (extract_and_format_enhanced nullFetchOracle
            [⟨"https://c.test/3", "", "", "", "", "", "", "sx", false,
              false, none, none, 0⟩]
            ⟨"https://c.test/3", "", "", "", "", "", "", "sx", false,
              false, none, none, 0⟩).2 none) :=
  extract_empty_fallback_stays_unprocessed nullFetchOracle _ _
    (by decide) rfl rfl rfl

/-- C10 counterexample: an exception raised during the fetch (inside
`fetch_with_strategy`) does not produce the claimed null-return-with-NULL
-columns outcome — with a non-empty snippet the engine returns a fallback
record and stores a non-NULL metadata column. -/
theorem extract_fetch_exception_cex :
    (extract_and_format_enhanced raiseFetchOracle [artU] artU).1 ≠ none ∧
    (extract_and_format_enhanced raiseFetchOracle [artU] artU).2.map
      Article.extracted_metadata ≠ [none] := by decide

/-- C10 amended: an exception raised during content parsing or metadata
extraction — the steps whose exceptions actually reach `extract`'s
handler; fetch exceptions are absorbed by `fetch_with_strategy` and route
to the snippet fallback instead — is caught: the article is marked
processed and failed with both extraction columns NULL, `extract` returns
null, and no future unprocessed scan ever returns this url again. -/
theorem extract_parse_exception_marks_failed (o : TrafOracle)
    (db : List Article) (a : Article) (d : String) (h1 : a.url ≠ "")
    (hf : fetch_with_strategy o.fetch a.url = some d) (hd : d ≠ "")
    (he : o.extract d = .error () ∨
      ∃ tc, o.extract d = .ok tc ∧ o.extract_metadata d = .error ()) :
    extract_and_format_enhanced o db a =
      (none, mark_as_processed db a.url false none none) ∧
    (∀ b ∈ (extract_and_format_enhanced o db a).2, b.url = a.url →
      b.processed = true ∧ b.trafilatura_success = false ∧
      b.extracted_content = none ∧ b.extracted_metadata = none) ∧
    ∀ lim, ∀ b ∈ get_unprocessed_articles
      (extract_and_format_enhanced o db a).2 lim, b.url ≠ a.url := by
  have heq := @extract_parse_error o db a d h1 hf hd he
  refine ⟨heq, fun b hb hu => mem_mark_url_eq (heq ▸ hb) hu,
    fun lim b hb hu => ?_⟩
  rw [heq] at hb
  obtain ⟨hmem, hproc⟩ := mem_unprocessed hb
  have := (mem_mark_url_eq hmem hu).1
  rw [this] at hproc
  exact Bool.noConfusion hproc

/-- Witness for C10's amended theorem: a concrete article whose page
downloads but whose parser raises. -/
theorem extract_parse_exception_marks_failed_witness :
    extract_and_format_enhanced parseErrorOracle [artU] artU =
      (none, mark_as_processed [artU] artU.url false none none) ∧
    (∀ b ∈ (extract_and_format_enhanced parseErrorOracle [artU] artU).2,
      b.url = artU.url →
      b.processed = true ∧ b.trafilatura_success = false ∧
      b.extracted_content = none ∧ b.extracted_metadata = none) ∧
    ∀ lim, ∀ b ∈ get_unprocessed_articles
      (extract_and_format_enhanced parseErrorOracle [artU] artU).2 lim,
      b.url ≠ artU.url :=
  extract_parse_exception_marks_failed parseErrorOracle [artU] artU
    "page body" (by decide) rfl (by decide) (Or.inl rfl)

/-- Stripping never lengthens a string. -/
theorem pyStrip_length_le (s : String) : (pyStrip s).length ≤ s.length := by
  unfold pyStrip
  show (((s.data.dropWhile Char.isWhitespace).reverse.dropWhile
      Char.isWhitespace).reverse).length ≤ s.data.length
  rw [List.length_reverse]
  calc ((s.data.dropWhile Char.isWhitespace).reverse.dropWhile
        Char.isWhitespace).length
      ≤ (s.data.dropWhile Char.isWhitespace).reverse.length :=
        ((List.dropWhile_suffix _).sublist).length_le
    _ = (s.data.dropWhile Char.isWhitespace).length :=
        List.length_reverse _
    _ ≤ s.data.length := ((List.dropWhile_suffix _).sublist).length_le

/-- The embedding comprehension fails as a whole as soon as any of its
texts fails to embed. -/
theorem embed_documents_error {embed : String → Except Unit (List Int)}
    {ts : List String} (h : ∃ t ∈ ts, embed t = .error ()) :
    embed_documents embed ts = .error () := by
  induction ts with
  | nil =>
      obtain ⟨t, ht, _⟩ := h
      exact absurd ht (List.not_mem_nil t)
  | cons t ts ih =>
      obtain ⟨u, hu, he⟩ := h
      unfold embed_documents
      rcases List.mem_cons.1 hu with rfl | hu'
      · rw [he]
      · cases hembed : embed t with
        | error e => cases e; rfl
        | ok v => rw [ih ⟨u, hu', he⟩]

/-- C6: if the embedding collaborator raises on any chunk of the batch,
the batcher commits zero rows to the vector store; the model is a total
function, so nothing is retried and nothing propagates to the caller. -/
theorem batch_abort_on_embed_failure (split : String → List String)
    (embed : String → Except Unit (List Int))
    (insertRows : List VectorRow → Except Unit Unit)
    (records : List ExtractOutput)
    (h : ∃ p ∈ gatherChunks split records, embed p.1 = .error ()) :
    process_and_upload_json_records split embed insertRows records = [] := by
  unfold process_and_upload_json_records
  split
  · rfl
  · dsimp only
    split
    · rfl
    · have herr : embed_documents embed
          ((gatherChunks split records).map Prod.fst) = .error () := by
        apply embed_documents_error
        obtain ⟨p, hp, he⟩ := h
        exact ⟨p.1, List.mem_map_of_mem Prod.fst hp, he⟩
      rw [herr]

/-- Witness for C6: one long-bodied record, an identity splitter and an
embedder that always raises. -/
theorem batch_abort_on_embed_failure_witness :
    process_and_upload_json_records (fun s => [s]) (fun _ => .error ())
      (fun _ => .ok ()) [recA] = [] :=
  batch_abort_on_embed_failure (fun s => [s]) (fun _ => .error ())
    (fun _ => .ok ()) [recA]
    ⟨(recA.page_content, ⟨recA.metadata, recA.id⟩), by decide, rfl⟩

/-- C7 counterexample: a chunk whose stripped length is exactly 20 is not
"under 20 characters", yet the batcher discards it (the code keeps only
chunks strictly longer than 20 after stripping): with a splitter emitting
such a chunk from a valid body, zero chunks survive and zero rows are
uploaded even though embedding works. -/
theorem chunk_filter_boundary_cex :
    (pyStrip "12345678901234567890").length = 20 ∧
    ¬ (pyStrip "12345678901234567890").length < 20 ∧
    gatherChunks (fun _ => ["12345678901234567890"]) [recA] = [] ∧
    process_and_upload_json_records (fun _ => ["12345678901234567890"])
      (fun _ => .ok [0]) (fun _ => .ok ()) [recA] = [] := by decide

/-- C7 amended: a record whose body is empty or strips to under 50
characters yields zero chunks (in particular any 49-character body, since
stripping never lengthens); for a record passing that floor, exactly the
chunks whose stripped length is strictly greater than 20 survive — chunks
stripping to at most 20 characters (including exactly 20) are
discarded. -/
theorem chunk_filtering (split : String → List String)
    (rec : ExtractOutput) (rest : List ExtractOutput) :
    (rec.page_content = "" ∨ (pyStrip rec.page_content).length < 50 →
      gatherChunks split (rec :: rest) = gatherChunks split rest) ∧
    (rec.page_content.length = 49 →
      gatherChunks split (rec :: rest) = gatherChunks split rest) ∧
    ((pyStrip rec.page_content).length ≥ 50 →
      gatherChunks split (rec :: rest) =
        ((split rec.page_content).filter
          (fun c => (pyStrip c).length > 20)).map
          (fun c => (c, ⟨rec.metadata, rec.id⟩)) ++
          gatherChunks split rest) := by
  have hshort : rec.page_content = "" ∨
      (pyStrip rec.page_content).length < 50 →
      gatherChunks split (rec :: rest) = gatherChunks split rest := by
    intro h
    unfold gatherChunks
    dsimp only
    rw [if_pos h]
    cases rest <;> rfl
  refine ⟨hshort, ?_, ?_⟩
  · intro h49
    apply hshort
    right
    have := pyStrip_length_le rec.page_content
    omega
  · intro hlong
    have hcond : ¬(rec.page_content = "" ∨
        (pyStrip rec.page_content).length < 50) := by
      rintro (hc | hlt)
      · rw [hc] at hlong
        have h0 : (pyStrip "").length = 0 := by decide
        omega
      · omega
    unfold gatherChunks
    dsimp only
    rw [if_neg hcond]
    cases rest <;> rfl

/-- Witness for C7's amended theorem: the 49-character body produces no
chunks, while a long body split into itself keeps its single
over-20-character chunk. -/
theorem chunk_filtering_witness :
    gatherChunks (fun s => [s]) [rec49] = gatherChunks (fun s => [s]) [] ∧
    gatherChunks (fun s => [s]) [recA] =
      (((fun s : String => [s]) recA.page_content).filter
        (fun c => (pyStrip c).length > 20)).map
        (fun c => (c, ⟨recA.metadata, recA.id⟩)) ++
        gatherChunks (fun s => [s]) [] :=
  ⟨(chunk_filtering (fun s => [s]) rec49 []).2.1 (by decide),
   (chunk_filtering (fun s => [s]) recA []).2.2 (by decide)⟩

/-- The collector's page loop behaves, from a failing page onward, exactly
as if the budget had ended just before that page. -/
theorem collectFrom_error_trunc
    (search : Nat → Except Unit (List SearxResult)) (k : Nat)
    (he : search k = .error ()) :
    ∀ fuel page db, page ≤ k → k < page + fuel →
      collectFrom search db page fuel =
        collectFrom search db page (k - page) := by
  intro fuel
  induction fuel with
  | zero =>
      intro page db h1 h2
      exact absurd h2 (by omega)
  | succ fuel ih =>
      intro page db h1 h2
      by_cases hpk : page = k
      · subst hpk
        have hnews : get_searxng_news search page = [] := by
          unfold get_searxng_news
          rw [he]
        rw [Nat.sub_self]
        unfold collectFrom
        rw [hnews]
      · have hk : k - page = (k - (page + 1)) + 1 := by omega
        rw [hk]
        unfold collectFrom
        cases hnews : get_searxng_news search page with
        | nil => rfl
        | cons item items =>
            dsimp only
            rw [ih (page + 1) (insertAll db (item :: items)).2 (by omega)
              (by omega)]

/-- C9: a transport error on page `k` of a topic's search is caught and
treated exactly like an empty result page — the page loop stops there, no
exception escapes (the model is total), and the collection run returns
precisely what a run truncated before page `k` returns, i.e. the new
articles inserted from the earlier pages. -/
theorem collect_transport_error_early_stop
    (search : Nat → Except Unit (List SearxResult)) (db : List Article)
    (k max_pages : Nat) (hk1 : 1 ≤ k) (hk2 : k ≤ max_pages)
    (he : search k = .error ()) :
    get_searxng_news search k = [] ∧
    collect_searxng_articles search db max_pages =
      collect_searxng_articles search db (k - 1) := by
  constructor
  · unfold get_searxng_news
    rw [he]
  · unfold collect_searxng_articles
    have h := collectFrom_error_trunc search k he max_pages 1 db hk1
      (by omega)
    have hk : k - 1 = k - 1 := rfl
    simpa using h

/-- Witness for C9: pages yield one result each, page 2 raises; a
three-page run equals a one-page run. -/
theorem collect_transport_error_early_stop_witness :
    get_searxng_news
      (fun p => if p = 2 then .error () else
        .ok [⟨"https://p.test/x", "T", "c", "", "", "", ""⟩]) 2 = [] ∧
    collect_searxng_articles
      (fun p => if p = 2 then .error () else
        .ok [⟨"https://p.test/x", "T", "c", "", "", "", ""⟩]) [] 3 =
    collect_searxng_articles
      (fun p => if p = 2 then .error () else
        .ok [⟨"https://p.test/x", "T", "c", "", "", "", ""⟩]) [] 1 :=
  collect_transport_error_early_stop
    (fun p => if p = 2 then .error () else
      .ok [⟨"https://p.test/x", "T", "c", "", "", "", ""⟩]) [] 2 3
    (by decide) (by decide) rfl

/-! ## Pipeline preservation lemmas -/

/-- The article store after a full pipeline run is the store left by the
processing phase over the store left by the collection phase. -/
theorem run_fst (search : Nat → Except Unit (List SearxResult))
    (o : TrafOracle) (split : String → List String)
    (embed : String → Except Unit (List Int))
    (insertRows : List VectorRow → Except Unit Unit)
    (db : List Article) (maxp : Nat) (lim : Option Nat) :
    (run_complete_pipeline search o split embed insertRows db maxp lim).1 =
      (process_stored_articles o
        (collect_searxng_articles search db maxp).2 lim).2 := by
  unfold run_complete_pipeline
  dsimp only
  split <;> rfl

/-- Inserting a search result preserves every stored row. -/
theorem insert_preserves_mem {db : List Article} {r : SearxResult}
    {b : Article} (hb : b ∈ db) : b ∈ (insert_searxng_result db r).2 := by
  unfold insert_searxng_result
  split
  · exact hb
  · split
    · exact hb
    · exact List.mem_append_left _ hb

/-- Inserting a search result preserves uniqueness of the url column. -/
theorem insert_preserves_nodup {db : List Article} {r : SearxResult}
    (h : (db.map Article.url).Nodup) :
    ((insert_searxng_result db r).2.map Article.url).Nodup := by
  unfold insert_searxng_result
  split
  · exact h
  · split
    · exact h
    · rename_i hex
      rw [List.map_append, List.nodup_append]
      refine ⟨h, by simp, ?_⟩
      intro x hx hx'
      simp only [List.map_cons, List.map_nil, List.mem_singleton] at hx'
      obtain ⟨a, ha, hau⟩ := List.mem_map.1 hx
      exact hex ⟨a, ha, by rw [hau, hx']⟩

/-- Inserting a search result preserves the store invariant: a fresh row
has default flags and NULL extraction columns. -/
theorem insert_preserves_invariant {db : List Article} {r : SearxResult}
    (h : storeInvariant db) : storeInvariant (insert_searxng_result db r).2 := by
  unfold insert_searxng_result
  split
  · exact h
  · split
    · exact h
    · intro b hb
      rcases List.mem_append.1 hb with hb | hb
      · exact h b hb
      · rw [List.mem_singleton] at hb
        subst hb
        exact ⟨fun hc => absurd rfl hc, fun _ => ⟨rfl, rfl⟩⟩

/-- The per-page insertion loop preserves membership, url uniqueness and
the store invariant. -/
theorem insertAll_preserves (items : List SearxResult) :
    ∀ db : List Article,
      (∀ b ∈ db, b ∈ (insertAll db items).2) ∧
      ((db.map Article.url).Nodup →
        ((insertAll db items).2.map Article.url).Nodup) ∧
      (storeInvariant db → storeInvariant (insertAll db items).2) := by
  induction items with
  | nil => exact fun db => ⟨fun b hb => hb, fun h => h, fun h => h⟩
  | cons item rest ih =>
      intro db
      unfold insertAll
      dsimp only
      refine ⟨fun b hb => (ih _).1 b (insert_preserves_mem hb),
        fun h => (ih _).2.1 (insert_preserves_nodup h),
        fun h => (ih _).2.2 (insert_preserves_invariant h)⟩

/-- The collection page loop preserves membership, url uniqueness and the
store invariant. -/
theorem collectFrom_preserves
    (search : Nat → Except Unit (List SearxResult)) :
    ∀ (fuel page : Nat) (db : List Article),
      (∀ b ∈ db, b ∈ (collectFrom search db page fuel).2) ∧
      ((db.map Article.url).Nodup →
        ((collectFrom search db page fuel).2.map Article.url).Nodup) ∧
      (storeInvariant db →
        storeInvariant (collectFrom search db page fuel).2) := by
  intro fuel
  induction fuel with
  | zero => exact fun page db => ⟨fun b hb => hb, fun h => h, fun h => h⟩
  | succ fuel ih =>
      intro page db
      unfold collectFrom
      cases hnews : get_searxng_news search page with
      | nil => exact ⟨fun b hb => hb, fun h => h, fun h => h⟩
      | cons item items =>
          dsimp only
          have hall := insertAll_preserves (item :: items) db
          refine ⟨fun b hb => (ih _ _).1 b (hall.1 b hb),
            fun h => (ih _ _).2.1 (hall.2.1 h),
            fun h => (ih _ _).2.2 (hall.2.2 h)⟩

/-- The extraction engine's store update is either a no-op, a success mark
with a populated content column, or a failure mark with a NULL content
column — always keyed on the processed article's url. -/
theorem extract_snd_shape (o : TrafOracle) (db : List Article)
    (a : Article) :
    (extract_and_format_enhanced o db a).2 = db ∨
    (∃ c m, (extract_and_format_enhanced o db a).2 =
      mark_as_processed db a.url true (some c) m) ∨
    (∃ m, (extract_and_format_enhanced o db a).2 =
      mark_as_processed db a.url false none m) := by
  unfold extract_and_format_enhanced
  split
  · left; rfl
  · split
    · right; right; exact ⟨none, rfl⟩
    · dsimp only
      split
      · right; left; exact ⟨_, _, rfl⟩
      · split
        · left; rfl
        · right; right; exact ⟨_, rfl⟩

/-- The extraction engine never changes the url column of the store. -/
theorem extract_map_url (o : TrafOracle) (db : List Article) (a : Article) :
    (extract_and_format_enhanced o db a).2.map Article.url =
      db.map Article.url := by
  rcases extract_snd_shape o db a with h | ⟨c, m, h⟩ | ⟨m, h⟩
  · rw [h]
  · rw [h, mark_map_url]
  · rw [h, mark_map_url]

/-- A stored row whose url differs from the processed article's url
survives the extraction engine unchanged. -/
theorem extract_preserves_mem_ne {o : TrafOracle} {db : List Article}
    {a b : Article} (hb : b ∈ db) (hne : b.url ≠ a.url) :
    b ∈ (extract_and_format_enhanced o db a).2 := by
  rcases extract_snd_shape o db a with h | ⟨c, m, h⟩ | ⟨m, h⟩
  · rw [h]; exact hb
  · rw [h]; exact mem_mark_of_mem_ne hb hne
  · rw [h]; exact mem_mark_of_mem_ne hb hne

/-- The store invariant survives a `mark_as_processed` call whose content
argument is NULL whenever the success flag is false. -/
theorem mark_preserves_invariant {db : List Article} {u : String}
    {s : Bool} {c m : Option String} (h : storeInvariant db)
    (hc : s = false → c = none) :
    storeInvariant (mark_as_processed db u s c m) := by
  intro b hb
  by_cases hu : b.url = u
  · obtain ⟨hp, hs, hcc, hm⟩ := mem_mark_url_eq hb hu
    constructor
    · intro hcn
      cases s with
      | true => exact hs
      | false =>
          rw [hc rfl] at hcc
          exact absurd hcc hcn
    · intro hpf
      rw [hp] at hpf
      exact Bool.noConfusion hpf
  · exact h b (mem_mark_url_ne hb hu)

/-- The extraction engine preserves the store invariant. -/
theorem extract_preserves_invariant {o : TrafOracle} {db : List Article}
    {a : Article} (h : storeInvariant db) :
    storeInvariant (extract_and_format_enhanced o db a).2 := by
  rcases extract_snd_shape o db a with hs | ⟨c, m, hs⟩ | ⟨m, hs⟩
  · rw [hs]; exact h
  · rw [hs]
    exact mark_preserves_invariant h (fun hf => Bool.noConfusion hf)
  · rw [hs]
    exact mark_preserves_invariant h (fun _ => rfl)

/-- The processing loop preserves the url column, the invariant, and any
stored row whose url is claimed by none of the processed articles. -/
theorem processList_preserves (o : TrafOracle) (arts : List Article) :
    ∀ db : List Article,
      ((processList o db arts).2.map Article.url = db.map Article.url) ∧
      (storeInvariant db → storeInvariant (processList o db arts).2) ∧
      (∀ b ∈ db, (∀ c ∈ arts, b.url ≠ c.url) →
        b ∈ (processList o db arts).2) := by
  induction arts with
  | nil => exact fun db => ⟨rfl, fun h => h, fun b hb _ => hb⟩
  | cons a rest ih =>
      intro db
      unfold processList
      dsimp only
      refine ⟨?_, fun h => (ih _).2.1 (extract_preserves_invariant h),
        fun b hb hne => ?_⟩
      · rw [(ih _).1, extract_map_url]
      · refine (ih _).2.2 b ?_ (fun c hc => hne c (List.mem_cons_of_mem a hc))
        exact extract_preserves_mem_ne hb (hne a (List.mem_cons_self a rest))

/-- C5: a record that is already `processed = 1` survives a complete
pipeline run (collect, process unprocessed, upload) unchanged — it is
still stored, and any stored row with its url still carries the same
`extracted_content` and `trafilatura_success` — because the extraction
phase only reads rows with `processed = 0`. -/
theorem processed_record_never_altered
    (search : Nat → Except Unit (List SearxResult)) (o : TrafOracle)
    (split : String → List String) (embed : String → Except Unit (List Int))
    (insertRows : List VectorRow → Except Unit Unit) (db : List Article)
    (maxp : Nat) (lim : Option Nat) (a : Article)
    (hnd : (db.map Article.url).Nodup) (ha : a ∈ db)
    (hp : a.processed = true) :
    a ∈ (run_complete_pipeline search o split embed insertRows
      db maxp lim).1 ∧
    ∀ b ∈ (run_complete_pipeline search o split embed insertRows
      db maxp lim).1, b.url = a.url →
      b.extracted_content = a.extracted_content ∧
      b.trafilatura_success = a.trafilatura_success := by
  rw [run_fst]
  have hc := collectFrom_preserves search maxp 1 db
  have ha1 : a ∈ (collect_searxng_articles search db maxp).2 := hc.1 a ha
  have hnd1 : ((collect_searxng_articles search db maxp).2.map
      Article.url).Nodup := hc.2.1 hnd
  have harts : ∀ c ∈ get_unprocessed_articles
      (collect_searxng_articles search db maxp).2 lim, a.url ≠ c.url := by
    intro c hc' he
    obtain ⟨hcdb, hcp⟩ := mem_unprocessed hc'
    have hac : a = c := List.inj_on_of_nodup_map hnd1 ha1 hcdb he
    rw [← hac, hp] at hcp
    exact Bool.noConfusion hcp
  have hpl := processList_preserves o
    (get_unprocessed_articles (collect_searxng_articles search db maxp).2
      lim) (collect_searxng_articles search db maxp).2
  have hmem := hpl.2.2 a ha1 harts
  have hnd2 : (((processList o (collect_searxng_articles search db maxp).2
      (get_unprocessed_articles (collect_searxng_articles search db maxp).2
        lim)).2).map Article.url).Nodup := by
    rw [hpl.1]
    exact hnd1
  unfold process_stored_articles
  refine ⟨hmem, fun b hb hu => ?_⟩
  have hba : b = a := List.inj_on_of_nodup_map hnd2 hb hmem hu
  rw [hba]
  exact ⟨rfl, rfl⟩

/-- Witness for C5: a store holding one processed record, a search that
returns no results, and a null-fetching oracle. -/
theorem processed_record_never_altered_witness :
    artP ∈ (run_complete_pipeline (fun _ => .ok []) nullFetchOracle
      (fun s => [s]) (fun _ => .ok [0]) (fun _ => .ok ())
      [artP] 1 none).1 :=
  (processed_record_never_altered (fun _ => .ok []) nullFetchOracle
    (fun s => [s]) (fun _ => .ok [0]) (fun _ => .ok ()) [artP] 1 none artP
    (by decide) (by decide) (by decide)).1

/-- C3 counterexample: an article processed via the snippet-fallback path
does not have both extraction fields unset — `extracted_metadata` is
populated (the serialized clean metadata) even though
`trafilatura_success = 0`. -/
theorem fallback_metadata_populated_cex :
    ((extract_and_format_enhanced nullFetchOracle [artU] artU).2.map
      Article.trafilatura_success = [false]) ∧
    ((extract_and_format_enhanced nullFetchOracle [artU] artU).2.map
      Article.extracted_content = [none]) ∧
    ((extract_and_format_enhanced nullFetchOracle [artU] artU).2.map
      Article.extracted_metadata ≠ [none]) := by decide

/-- C3 amended: `extracted_content` is populated only when extraction
succeeded, and `processed = 0` implies both extraction columns are NULL —
an invariant every pipeline run preserves; but a snippet-fallback article
(`trafilatura_success = 0`) has only `extracted_content` unset, while
`extracted_metadata` is populated with the constructed metadata. -/
theorem extraction_columns_invariant
    (search : Nat → Except Unit (List SearxResult)) (o : TrafOracle)
    (split : String → List String) (embed : String → Except Unit (List Int))
    (insertRows : List VectorRow → Except Unit Unit) (db : List Article)
    (maxp : Nat) (lim : Option Nat) (a : Article) :
    (storeInvariant db →
      storeInvariant (run_complete_pipeline search o split embed insertRows
        db maxp lim).1) ∧
    (a.url ≠ "" → fetch_with_strategy o.fetch a.url = none →
      pyOr a.content a.title ≠ "" →
      ∀ b ∈ (extract_and_format_enhanced o db a).2, b.url = a.url →
        b.extracted_content = none ∧ b.extracted_metadata ≠ none ∧
        b.trafilatura_success = false) := by
  constructor
  · intro h
    rw [run_fst]
    exact (processList_preserves o _ _).2.1
      ((collectFrom_preserves search maxp 1 db).2.2 h)
  · intro h1 hf hfc b hb hu
    rw [extract_fetch_none_fallback h1 hf hfc] at hb
    obtain ⟨hp, hs, hcc, hm⟩ := mem_mark_url_eq hb hu
    refine ⟨hcc, ?_, hs⟩
    rw [hm]
    exact fun hx => Option.noConfusion hx

/-- Witness for C3's amended theorem: the invariant holds after a concrete
run over a store holding one unprocessed article, and the concrete
fallback-marked row has NULL content but populated metadata. -/
theorem extraction_columns_invariant_witness :
    storeInvariant (run_complete_pipeline (fun _ => .ok [])
      nullFetchOracle (fun s => [s]) (fun _ => .ok [0]) (fun _ => .ok ())
      [artV] 1 none).1 ∧
    ((⟨"u", "t", "snip", "", "", "", "", "", true, false, none,
        some (serializeMetadata
          (mkCleanMetadata TrafMeta.empty artV "searxng_fallback" false)),
        0⟩ : Article).extracted_content = none ∧
      (⟨"u", "t", "snip", "", "", "", "", "", true, false, none,
        some (serializeMetadata
          (mkCleanMetadata TrafMeta.empty artV "searxng_fallback" false)),
        0⟩ : Article).extracted_metadata ≠ none ∧
      (⟨"u", "t", "snip", "", "", "", "", "", true, false, none,
        some (serializeMetadata
          (mkCleanMetadata TrafMeta.empty artV "searxng_fallback" false)),
        0⟩ : Article).trafilatura_success = false) :=
  ⟨(extraction_columns_invariant (fun _ => .ok []) nullFetchOracle
      (fun s => [s]) (fun _ => .ok [0]) (fun _ => .ok ()) [artV] 1 none
      artV).1 (by unfold storeInvariant; decide),
   (extraction_columns_invariant (fun _ => .ok []) nullFetchOracle
      (fun s => [s]) (fun _ => .ok [0]) (fun _ => .ok ()) [artV] 1 none
      artV).2 (by decide) rfl (by decide)
      ⟨"u", "t", "snip", "", "", "", "", "", true, false, none,
        some (serializeMetadata
          (mkCleanMetadata TrafMeta.empty artV "searxng_fallback" false)),
        0⟩ (by decide) rfl⟩

end Gameloft
